import Mathlib

set_option autoImplicit false

/-!
Shallow embedding of the ExecutorsManager module of the codesandbox-client
fragment: executor selection (`getExecutorType`), file-snapshot derivation
(`getModulesToSend`) and the manager lifecycle operations
(`initializeExecutor`, `setupExecutor`, `isServer`, `updateFiles`,
`getExecutor`, `closeExecutor`).

Stateful, asynchronous JavaScript is embedded as explicit state passing:
each operation maps a `ManagerState` to an `Outcome` holding the resulting
state, the ordered list of backend calls made (`Event` trace), and either a
result or the error that was thrown (`ExecError`). Backend instances are
modelled as a kind tag plus a numeric instance identity, and the opaque
backend collaborators (dispose/initialize/setup, the template registry and
the manifest generator) are parameters (`Behavior`, `Env`).
-/

/-- The two executor classes: `ServerExecutor` (remote, container based) and
`SandboxExecutor` (in-browser bundler). `instanceof` checks on the executor
become comparisons of this kind tag. -/
inductive ExecKind where
  | server
  | sandbox
deriving Repr, DecidableEq

/-- A sandbox module (file): path, current code, last-saved code, binary
flag. Optional fields model JavaScript `undefined`/`null`. -/
structure SandboxModule where
  path : String
  code : Option String
  savedCode : Option String
  isBinary : Option Bool
deriving Repr, DecidableEq

/-- A sandbox value as the manager reads it: id, template tag, ordered
modules. -/
structure Sandbox where
  id : String
  template : String
  modules : List SandboxModule
deriving Repr, DecidableEq

/-- The part of a template definition the manager reads. -/
structure TemplateDefinition where
  isServer : Bool
deriving Repr, DecidableEq

/-- One value of the `IFiles` mapping: the object
`\x7b code, savedCode, path, isBinary \x7d` stored per path by
`getModulesToSend`. -/
structure FileEntry where
  code : Option String
  savedCode : Option String
  path : String
  isBinary : Option Bool
deriving Repr, DecidableEq

/-- `IFiles`: a JavaScript object keyed by path, modelled as an association
list in key-insertion order with at most one entry per key. -/
abbrev IFiles : Type := List (String × FileEntry)

/-- JavaScript object property write `o[k] = v`: replaces the value in
place when the key is present (keeping its position), otherwise appends the
new key at the end. -/
def insertJS (m : IFiles) (k : String) (v : FileEntry) : IFiles :=
  if (List.any m fun p => p.1 = k) then
    List.map (fun p => if p.1 = k then (k, v) else p) m
  else
    m ++ [(k, v)]

/-- JavaScript object property read `o[k]`: the stored value, or
`undefined` (`none`) when the key is absent. -/
def lookupJS (m : IFiles) (k : String) : Option FileEntry :=
  Option.map Prod.snd (List.find? (fun p => p.1 = k) m)

/-- A live backend instance: the kind it was constructed for plus a
numeric identity distinguishing instances of the same kind. -/
structure Executor where
  kind : ExecKind
  instId : Nat
deriving Repr, DecidableEq

/-- Manager state: the single active executor slot (`undefined` = `none`)
plus a counter supplying fresh instance identities. -/
structure ManagerState where
  executor : Option Executor
  nextId : Nat
deriving Repr, DecidableEq

/-- A call made to a backend instance, recorded in program order. -/
inductive Event where
  | dispose (instId : Nat) (kind : ExecKind)
  | construct (instId : Nat) (kind : ExecKind)
  | initCall (instId : Nat) (sandboxId : String) (files : IFiles) (host : String)
  | setup (instId : Nat)
  | updateFiles (instId : Nat) (files : IFiles)
deriving Repr, DecidableEq

/-- Whether an event is a backend disposal. -/
def Event.isDispose : Event → Bool
  | .dispose _ _ => true
  | _ => false

/-- Errors thrown by manager operations: a null-reference failure from
dereferencing the absent executor, or a rejection from an opaque backend
operation. -/
inductive ExecError where
  | nullRef
  | disposeFailure (instId : Nat)
  | initFailure (instId : Nat)
  | setupFailure (instId : Nat)
deriving Repr, DecidableEq

instance {ε α : Type} [DecidableEq ε] [DecidableEq α] : DecidableEq (Except ε α)
  | .ok a, .ok b => decidable_of_iff (a = b) (by simp)
  | .ok _, .error _ => isFalse (by simp)
  | .error _, .ok _ => isFalse (by simp)
  | .error a, .error b => decidable_of_iff (a = b) (by simp)

/-- Result of running one manager operation: final state, trace of backend
calls, and the returned value or thrown error. -/
structure Outcome (α : Type) where
  state : ManagerState
  trace : List Event
  result : Except ExecError α
deriving Repr, DecidableEq

/-- Opaque backend behaviour: whether dispose/initialize/setup of a given
instance rejects. The backends are external collaborators; the manager only
observes success or failure of their promises. -/
structure Behavior where
  disposeFails : Nat → Bool
  initFails : Nat → Bool
  setupFails : Nat → Bool

/-- External collaborators and environment. `getDefinition` is the template
registry (the manager reads only `isServer`); `generateFileFromSandbox` -
modelled from the spec: the manifest generator from
`@codesandbox/common`, not under src/, which given a sandbox produces
manifest file text; `stagingApi` is the truthiness of the
`STAGING_API` environment variable. -/
structure Env where
  getDefinition : String → TemplateDefinition
  generateFileFromSandbox : Sandbox → String
  stagingApi : Bool

/-- `getExecutorType`: `ServerExecutor` when `isServer`, else
`SandboxExecutor`. -/
def getExecutorType (isServer : Bool) : ExecKind :=
  if isServer then .server else .sandbox

/-- The executor kind `initializeExecutor` requires for a sandbox. -/
def requiredKind (env : Env) (sandbox : Sandbox) : ExecKind :=
  getExecutorType (env.getDefinition sandbox.template).isServer

/-- The entry `\x7b code, savedCode, path, isBinary \x7d` that the
`getModulesToSend` loop stores for a module. -/
def moduleEntry (m : SandboxModule) : FileEntry :=
  { code := m.code, savedCode := m.savedCode, path := m.path, isBinary := m.isBinary }

/-- One iteration of the `sandbox.modules.forEach` loop of
`getModulesToSend`: store the entry under the module path when the path is
truthy (non-empty), else leave the object unchanged. -/
def addModule (acc : IFiles) (m : SandboxModule) : IFiles :=
  if m.path ≠ "" then insertJS acc m.path (moduleEntry m) else acc

/-- The `/package.json` entry `getModulesToSend` synthesizes when absent:
manifest-generator output, null savedCode, `isBinary := false`. -/
def packageJsonEntry (env : Env) (sandbox : Sandbox) : FileEntry :=
  { code := some (env.generateFileFromSandbox sandbox), savedCode := none,
    path := "/package.json", isBinary := some false }

/-- `getModulesToSend`: iterate the sandbox modules in order; for each
module with a truthy (non-empty) path store
`\x7b code, savedCode, path, isBinary \x7d` under that path; afterwards, if
no entry exists for `/package.json`, synthesize one from the manifest
generator with null savedCode and `isBinary := false`. -/
def getModulesToSend (env : Env) (sandbox : Sandbox) : IFiles :=
  let modulesObject : IFiles := List.foldl addModule ([] : IFiles) sandbox.modules
  if (lookupJS modulesObject "/package.json").isNone then
    insertJS modulesObject "/package.json" (packageJsonEntry env sandbox)
  else
    modulesObject

/-- The SSE host chosen from the `STAGING_API` flag. -/
def sseHost (stagingApi : Bool) : String :=
  if stagingApi then "https://codesandbox.stream" else "https://codesandbox.io"

/-- Continuation of `initializeExecutor` after the dispose-on-kind-change
phase (source lines 73-89): construct a new executor when the slot is
empty, then await `initialize` on the active executor with the sandbox id,
the derived snapshot and the host. `tr` is the trace accumulated so far. -/
def initializeExecutorRest (env : Env) (beh : Behavior) (st : ManagerState)
    (tr : List Event) (sandbox : Sandbox) (kind : ExecKind) : Outcome Executor :=
  let (st2, tr2, exec) :=
    match st.executor with
    | some e => (st, tr, e)
    | none =>
      let e : Executor := ⟨kind, st.nextId⟩
      ({ executor := some e, nextId := st.nextId + 1 },
        tr ++ [Event.construct st.nextId kind], e)
  let host := sseHost env.stagingApi
  let files := getModulesToSend env sandbox
  let ev := Event.initCall exec.instId sandbox.id files host
  if beh.initFails exec.instId then
    ⟨st2, tr2 ++ [ev], .error (.initFailure exec.instId)⟩
  else
    ⟨st2, tr2 ++ [ev], .ok exec⟩

/-- `initializeExecutor(sandbox)`: if an active executor exists whose class
differs from the required one, await its dispose (a rejection propagates
before the slot is cleared) and clear the slot; construct a new executor
when the slot is empty; then await `executor.initialize` with the sandbox
id, the derived file snapshot and the host; return the active executor. -/
def initializeExecutor (env : Env) (beh : Behavior) (st : ManagerState)
    (sandbox : Sandbox) : Outcome Executor :=
  let kind := requiredKind env sandbox
  match st.executor with
  | some e =>
    if e.kind ≠ kind then
      if beh.disposeFails e.instId then
        ⟨st, [.dispose e.instId e.kind], .error (.disposeFailure e.instId)⟩
      else
        initializeExecutorRest env beh
          { st with executor := none } [.dispose e.instId e.kind] sandbox kind
    else
      initializeExecutorRest env beh st [] sandbox kind
  | none => initializeExecutorRest env beh st [] sandbox kind

/-- `getExecutor()`: the current executor, possibly `undefined`. -/
def getExecutor (st : ManagerState) : Option Executor :=
  st.executor

/-- `setupExecutor()`: `getExecutor().setup()`; dereferencing `undefined`
throws a null-reference error. -/
def setupExecutor (beh : Behavior) (st : ManagerState) : Outcome Unit :=
  match getExecutor st with
  | none => ⟨st, [], .error .nullRef⟩
  | some e =>
    if beh.setupFails e.instId then
      ⟨st, [.setup e.instId], .error (.setupFailure e.instId)⟩
    else
      ⟨st, [.setup e.instId], .ok ()⟩

/-- `isServer()`: `this.executor instanceof ServerExecutor`
(`undefined instanceof C` is `false`). -/
def isServer (st : ManagerState) : Bool :=
  match st.executor with
  | some e => e.kind = .server
  | none => false

/-- `updateFiles(sandbox)`: derive the snapshot, then call
`this.executor.updateFiles(modules)`; dereferencing `undefined` throws. -/
def updateFiles (env : Env) (st : ManagerState) (sandbox : Sandbox) : Outcome Unit :=
  let modules := getModulesToSend env sandbox
  match st.executor with
  | none => ⟨st, [], .error .nullRef⟩
  | some e => ⟨st, [.updateFiles e.instId modules], .ok ()⟩

/-- `closeExecutor()`: await `this.executor.dispose()` (dereferencing
`undefined` throws; a rejection propagates before the slot is cleared),
then clear the slot. -/
def closeExecutor (beh : Behavior) (st : ManagerState) : Outcome Unit :=
  match st.executor with
  | none => ⟨st, [], .error .nullRef⟩
  | some e =>
    if beh.disposeFails e.instId then
      ⟨st, [.dispose e.instId e.kind], .error (.disposeFailure e.instId)⟩
    else
      ⟨{ st with executor := none }, [.dispose e.instId e.kind], .ok ()⟩

/-- The last module of the list whose path equals `p` (the write that wins
in the snapshot), if any. -/
def lastModuleAt (ms : List SandboxModule) (p : String) : Option SandboxModule :=
  match ms with
  | [] => none
  | m :: rest =>
    match lastModuleAt rest p with
    | some m2 => some m2
    | none => if m.path = p then some m else none

/-! Concrete fixtures used by witnesses and counterexamples. -/

/-- A concrete environment: the template tagged `node` is server backed,
all others are browser backed; the manifest generator prepends a marker to
the sandbox id; production host. -/
def envA : Env :=
  ⟨fun t => ⟨t = "node"⟩, fun sb => String.append "manifest:" sb.id, false⟩

/-- Backend behaviour where every operation succeeds. -/
def behOK : Behavior := ⟨fun _ => false, fun _ => false, fun _ => false⟩

/-- Backend behaviour where every dispose rejects. -/
def behDF : Behavior := ⟨fun _ => true, fun _ => false, fun _ => false⟩

/-- A server-backed sandbox with one module. -/
def sbServer : Sandbox := ⟨"s1", "node", [⟨"/a.js", some "x", none, none⟩]⟩

/-- A browser-backed sandbox with one module. -/
def sbBrowser : Sandbox := ⟨"s2", "react", [⟨"/a.js", some "y", none, none⟩]⟩

/-- A parameterized sandbox whose modules are exactly one entry
`\x7b path := "/a.js", code := "x" \x7d` and which has no manifest module. -/
def sb7 (id tmpl : String) : Sandbox := ⟨id, tmpl, [⟨"/a.js", some "x", none, none⟩]⟩

/-! Helper lemmas about the JavaScript object model. -/

/-- An entrywise Boolean invariant survives a JavaScript object write when
the written pair satisfies it. -/
theorem insertJS_all (f : String × FileEntry → Bool) (m : IFiles) (k : String)
    (v : FileEntry) (hm : List.all m f = true) (hv : f (k, v) = true) :
    List.all (insertJS m k v) f = true := by
  unfold insertJS
  by_cases h : (List.any m fun p => p.1 = k) = true
  · rw [if_pos h]
    rw [List.all_eq_true] at hm ⊢
    intro p hp
    rcases List.mem_map.mp hp with ⟨q, hq, hqe⟩
    by_cases hqk : q.1 = k
    · rw [← hqe]; simpa [hqk] using hv
    · rw [← hqe]; simpa [hqk] using hm q hq
  · rw [if_neg h]
    rw [List.all_eq_true] at hm ⊢
    intro p hp
    rcases List.mem_append.mp hp with hp | hp
    · exact hm p hp
    · rcases List.mem_singleton.mp hp with rfl
      exact hv

/-- Reading back the key just written returns the written value. -/
theorem lookupJS_insert_self (m : IFiles) (k : String) (v : FileEntry) :
    lookupJS (insertJS m k v) k = some v := by
  unfold insertJS lookupJS
  by_cases h : (List.any m fun p => p.1 = k) = true
  · rw [if_pos h]
    induction m with
    | nil => simp at h
    | cons q rest ih =>
      rw [List.map_cons]
      by_cases hqk : q.1 = k
      · rw [if_pos hqk, List.find?_cons_of_pos _ (by simp)]
        rfl
      · rw [if_neg hqk, List.find?_cons_of_neg _ (by simp [hqk])]
        exact ih (by simpa [List.any_cons, hqk] using h)
  · rw [if_neg h]
    induction m with
    | nil => simp
    | cons q rest ih =>
      have hqk : ¬ q.1 = k := by
        intro hq
        exact h (by simp [List.any_cons, hq])
      rw [List.cons_append, List.find?_cons_of_neg _ (by simp [hqk])]
      exact ih (by intro hr; exact h (by simp only [List.any_cons, hr, Bool.or_true]))

/-- Writing key `k` does not change the value read at a different key. -/
theorem lookupJS_insert_ne (m : IFiles) (k k2 : String) (v : FileEntry)
    (hne : k2 ≠ k) : lookupJS (insertJS m k v) k2 = lookupJS m k2 := by
  unfold insertJS lookupJS
  by_cases h : (List.any m fun p => p.1 = k) = true
  · rw [if_pos h]
    clear h
    induction m with
    | nil => rfl
    | cons q rest ih =>
      rw [List.map_cons]
      by_cases hqk : q.1 = k
      · rw [if_pos hqk]
        rw [List.find?_cons_of_neg _ (by simp; exact fun hh => hne hh.symm)]
        rw [List.find?_cons_of_neg _
          (by simp only [decide_eq_true_eq]; rw [hqk]; exact fun hh => hne hh.symm)]
        exact ih
      · rw [if_neg hqk]
        by_cases hq2 : q.1 = k2
        · rw [List.find?_cons_of_pos _ (by simp [hq2]), List.find?_cons_of_pos _ (by simp [hq2])]
        · rw [List.find?_cons_of_neg _ (by simp [hq2]), List.find?_cons_of_neg _ (by simp [hq2])]
          exact ih
  · rw [if_neg h]
    clear h
    induction m with
    | nil =>
      simp only [List.nil_append, List.find?_nil]
      rw [List.find?_cons_of_neg _ (by simp only [decide_eq_true_eq]; exact fun hh => hne hh.symm)]
      rfl
    | cons q rest ih =>
      rw [List.cons_append]
      by_cases hq2 : q.1 = k2
      · rw [List.find?_cons_of_pos _ (by simp [hq2]), List.find?_cons_of_pos _ (by simp [hq2])]
      · rw [List.find?_cons_of_neg _ (by simp [hq2]), List.find?_cons_of_neg _ (by simp [hq2])]
        exact ih

/-- After folding the module loop, the value at a non-empty path is the
entry of the last module with that path, and paths never written keep the
value of the initial object. -/
theorem foldl_addModule_lookup (ms : List SandboxModule) (acc : IFiles) (p : String)
    (hp : p ≠ "") :
    lookupJS (List.foldl addModule acc ms) p =
      (match lastModuleAt ms p with
       | some m => some (moduleEntry m)
       | none => lookupJS acc p) := by
  induction ms generalizing acc with
  | nil => rfl
  | cons m rest ih =>
    rw [List.foldl_cons, ih (addModule acc m)]
    rcases hl : lastModuleAt rest p with _ | m2
    · simp only [lastModuleAt, hl]
      by_cases hmp : m.path = p
      · have hne : m.path ≠ "" := by rw [hmp]; exact hp
        unfold addModule
        rw [if_pos hne, if_pos hmp, hmp, lookupJS_insert_self]
      · rw [if_neg hmp]
        unfold addModule
        by_cases hne : m.path ≠ ""
        · rw [if_pos hne, lookupJS_insert_ne _ _ _ _ (fun hh => hmp hh.symm)]
        · rw [if_neg hne]
    · simp only [lastModuleAt, hl]

/-- An entrywise Boolean invariant survives the whole module loop when
every stored module entry satisfies it. -/
theorem foldl_addModule_all (f : String × FileEntry → Bool) (ms : List SandboxModule)
    (acc : IFiles) (hacc : List.all acc f = true)
    (hf : ∀ m : SandboxModule, m.path ≠ "" → f (m.path, moduleEntry m) = true) :
    List.all (List.foldl addModule acc ms) f = true := by
  induction ms generalizing acc with
  | nil => exact hacc
  | cons m rest ih =>
    rw [List.foldl_cons]
    apply ih
    unfold addModule
    by_cases h : m.path ≠ ""
    · rw [if_pos h]; exact insertJS_all f acc _ _ hacc (hf m h)
    · rw [if_neg h]; exact hacc

/-- A JavaScript object write preserves distinctness of the keys. -/
theorem insertJS_keys_nodup (m : IFiles) (k : String) (v : FileEntry)
    (h : (List.map Prod.fst m).Nodup) :
    (List.map Prod.fst (insertJS m k v)).Nodup := by
  unfold insertJS
  by_cases hc : (List.any m fun p => p.1 = k) = true
  · rw [if_pos hc]
    have heq : List.map Prod.fst (List.map (fun p => if p.1 = k then (k, v) else p) m) =
        List.map Prod.fst m := by
      rw [List.map_map]
      apply List.map_congr_left
      intro p _
      by_cases hpk : p.1 = k
      · simp [hpk]
      · simp [hpk]
    rw [heq]; exact h
  · rw [if_neg hc]
    have hk : k ∉ List.map Prod.fst m := by
      intro hmem
      apply hc
      rw [List.any_eq_true]
      rcases List.mem_map.mp hmem with ⟨p, hp, hpk⟩
      exact ⟨p, hp, by simp [hpk]⟩
    rw [List.map_append]
    simp only [List.map_cons, List.map_nil]
    rw [← List.concat_eq_append]
    exact List.Nodup.concat hk h

/-- The module loop preserves distinctness of the keys. -/
theorem foldl_addModule_keys_nodup (ms : List SandboxModule) (acc : IFiles)
    (h : (List.map Prod.fst acc).Nodup) :
    (List.map Prod.fst (List.foldl addModule acc ms)).Nodup := by
  induction ms generalizing acc with
  | nil => exact h
  | cons m rest ih =>
    rw [List.foldl_cons]
    apply ih
    unfold addModule
    by_cases hne : m.path ≠ ""
    · rw [if_pos hne]; exact insertJS_keys_nodup acc m.path (moduleEntry m) h
    · rw [if_neg hne]; exact h

/-- A key no entry matches reads back as `undefined`. -/
theorem lookupJS_eq_none_of_all (m : IFiles) (k : String)
    (h : List.all m (fun p => !(p.1 == k)) = true) : lookupJS m k = none := by
  unfold lookupJS
  have hfind : List.find? (fun p => p.1 = k) m = none := by
    rw [List.find?_eq_none]
    intro p hp
    have := (List.all_eq_true.mp h) p hp
    simpa using this
  rw [hfind]
  rfl

/-- When the construct-and-initialize phase succeeds, the executor it
returns occupies the slot and is either the preexisting instance or a fresh
instance of the requested kind. -/
theorem initializeExecutorRest_ok (env : Env) (beh : Behavior) (st : ManagerState)
    (tr : List Event) (sandbox : Sandbox) (kind : ExecKind) (e : Executor)
    (h : (initializeExecutorRest env beh st tr sandbox kind).result = .ok e) :
    (initializeExecutorRest env beh st tr sandbox kind).state.executor = some e ∧
    (st.executor = some e ∨ e = ⟨kind, st.nextId⟩) := by
  unfold initializeExecutorRest at h ⊢
  rcases hst : st.executor with _ | e0 <;> simp only [hst] at h ⊢
  · by_cases hf : beh.initFails st.nextId <;> simp [hf] at h ⊢
    exact ⟨h, h.symm⟩
  · by_cases hf : beh.initFails e0.instId <;> simp [hf] at h ⊢
    exact ⟨by rw [hst, h], Or.inl h⟩

/-! Claim theorems. -/

/-- C1: for every sandbox whose template resolves to executor kind K, after
a successful `initializeExecutor` call the active executor slot is
non-none, holds an executor of kind K, and holds exactly the executor the
call returns. -/
theorem initializeExecutor_sets_active (env : Env) (beh : Behavior)
    (st : ManagerState) (sandbox : Sandbox) (e : Executor)
    (h : (initializeExecutor env beh st sandbox).result = .ok e) :
    getExecutor (initializeExecutor env beh st sandbox).state = some e ∧
    e.kind = requiredKind env sandbox := by
  unfold getExecutor
  unfold initializeExecutor at h ⊢
  rcases hst : st.executor with _ | e0 <;> simp only [hst] at h ⊢
  · have h2 := initializeExecutorRest_ok env beh st [] sandbox (requiredKind env sandbox) e h
    refine ⟨h2.1, ?_⟩
    rcases h2.2 with h3 | h3
    · rw [hst] at h3; cases h3
    · rw [h3]
  · by_cases hk : e0.kind = requiredKind env sandbox
    · simp only [hk, ne_eq, not_true_eq_false, if_false, ite_false] at h ⊢
      have h2 := initializeExecutorRest_ok env beh st [] sandbox (requiredKind env sandbox) e h
      refine ⟨h2.1, ?_⟩
      rcases h2.2 with h3 | h3
      · rw [hst] at h3
        injection h3 with h4
        rw [← h4, hk]
      · rw [h3]
    · simp only [hk, ne_eq, not_false_iff, if_true, ite_true] at h ⊢
      by_cases hd : beh.disposeFails e0.instId
      · simp [hd] at h
      · simp only [hd, if_false, ite_false, Bool.false_eq_true] at h ⊢
        have h2 := initializeExecutorRest_ok env beh { st with executor := none }
          [.dispose e0.instId e0.kind] sandbox (requiredKind env sandbox) e h
        refine ⟨h2.1, ?_⟩
        rcases h2.2 with h3 | h3
        · cases h3
        · rw [h3]

/-- Witness for C1 at a concrete server sandbox from the empty state. -/
theorem initializeExecutor_sets_active_witness :
    getExecutor (initializeExecutor envA behOK ⟨none, 0⟩ sbServer).state =
      some ⟨.server, 0⟩ ∧ (⟨.server, 0⟩ : Executor).kind = requiredKind envA sbServer :=
  initializeExecutor_sets_active envA behOK ⟨none, 0⟩ sbServer ⟨.server, 0⟩ (by decide)

/-- C2: with an active executor present, a call whose required kind matches
makes no dispose call and keeps the same instance in the slot (returning it
when the backend initialize succeeds); a call whose required kind differs,
with dispose and initialize succeeding, produces exactly the trace dispose
of the old instance, then construction of a fresh instance of the new kind,
then its initialization - one dispose, completed before construction. -/
theorem initializeExecutor_reuse_and_switch (env : Env) (beh : Behavior)
    (st : ManagerState) (sandbox : Sandbox) (e : Executor)
    (h1 : st.executor = some e) :
    (e.kind = requiredKind env sandbox →
      (initializeExecutor env beh st sandbox).trace.all (fun ev => !ev.isDispose) = true ∧
      (initializeExecutor env beh st sandbox).state.executor = some e ∧
      (beh.initFails e.instId = false →
        (initializeExecutor env beh st sandbox).result = .ok e)) ∧
    (e.kind ≠ requiredKind env sandbox → beh.disposeFails e.instId = false →
      beh.initFails st.nextId = false →
      (initializeExecutor env beh st sandbox).trace =
        [.dispose e.instId e.kind,
         .construct st.nextId (requiredKind env sandbox),
         .initCall st.nextId sandbox.id (getModulesToSend env sandbox)
           (sseHost env.stagingApi)] ∧
      (initializeExecutor env beh st sandbox).result =
        .ok ⟨requiredKind env sandbox, st.nextId⟩ ∧
      (initializeExecutor env beh st sandbox).state.executor =
        some ⟨requiredKind env sandbox, st.nextId⟩) := by
  constructor
  · intro hk
    unfold initializeExecutor initializeExecutorRest
    simp only [h1, hk, ne_eq, not_true_eq_false, if_false, ite_false, ite_self]
    by_cases hf : beh.initFails e.instId <;>
      simp [hf, Event.isDispose, h1]
  · intro hk hd hf
    unfold initializeExecutor initializeExecutorRest
    simp [h1, hk, hd, hf]

/-- Witness for C2: switching from a server executor to a browser sandbox
disposes, constructs, initializes in that order. -/
theorem initializeExecutor_reuse_and_switch_witness :
    (initializeExecutor envA behOK ⟨some ⟨.server, 0⟩, 1⟩ sbBrowser).trace =
      [.dispose 0 .server, .construct 1 .sandbox,
       .initCall 1 "s2" (getModulesToSend envA sbBrowser) (sseHost false)] ∧
    (initializeExecutor envA behOK ⟨some ⟨.server, 0⟩, 1⟩ sbBrowser).result =
      .ok ⟨.sandbox, 1⟩ ∧
    (initializeExecutor envA behOK ⟨some ⟨.server, 0⟩, 1⟩ sbBrowser).state.executor =
      some ⟨.sandbox, 1⟩ := by
  have h := initializeExecutor_reuse_and_switch envA behOK ⟨some ⟨.server, 0⟩, 1⟩
    sbBrowser ⟨.server, 0⟩ rfl
  exact h.2 (by decide) rfl rfl

/-- C3: the snapshot has pairwise distinct keys; at every non-empty path
other than the manifest path the stored entry is the entry of the last
module with that path (last write wins) or absent when no module has it;
the empty path is never a key; and the manifest path always has an entry,
namely the last module with that path when one exists and the synthesized
entry exactly when none does. -/
theorem getModulesToSend_characterization (env : Env) (sandbox : Sandbox) (p : String)
    (hp1 : p ≠ "") (hp2 : p ≠ "/package.json") :
    (List.map Prod.fst (getModulesToSend env sandbox)).Nodup ∧
    lookupJS (getModulesToSend env sandbox) p =
      Option.map moduleEntry (lastModuleAt sandbox.modules p) ∧
    lookupJS (getModulesToSend env sandbox) "" = none ∧
    lookupJS (getModulesToSend env sandbox) "/package.json" =
      some (match lastModuleAt sandbox.modules "/package.json" with
            | some m => moduleEntry m
            | none => packageJsonEntry env sandbox) := by
  simp only [getModulesToSend]
  have hlookup : ∀ q : String, q ≠ "" →
      lookupJS (List.foldl addModule ([] : IFiles) sandbox.modules) q =
        Option.map moduleEntry (lastModuleAt sandbox.modules q) := by
    intro q hq
    rw [foldl_addModule_lookup _ _ _ hq]
    rcases lastModuleAt sandbox.modules q with _ | m <;> rfl
  have hall : List.all (List.foldl addModule ([] : IFiles) sandbox.modules)
      (fun p => !(p.1 == "")) = true := by
    refine foldl_addModule_all _ _ _ rfl ?_
    intro m hm
    simp only [Bool.not_eq_true']
    exact decide_eq_false hm
  have hempty : lookupJS (List.foldl addModule ([] : IFiles) sandbox.modules) "" = none :=
    lookupJS_eq_none_of_all _ _ hall
  have hnodup : (List.map Prod.fst (List.foldl addModule ([] : IFiles) sandbox.modules)).Nodup :=
    foldl_addModule_keys_nodup _ _ (by simp)
  by_cases h : (lookupJS (List.foldl addModule ([] : IFiles) sandbox.modules) "/package.json").isNone
  · rw [if_pos h]
    have hnone : lastModuleAt sandbox.modules "/package.json" = none := by
      have hpk := hlookup "/package.json" (by decide)
      rcases hl : lastModuleAt sandbox.modules "/package.json" with _ | m
      · rfl
      · rw [hl] at hpk
        rw [hpk] at h
        simp at h
    refine ⟨insertJS_keys_nodup _ _ _ hnodup, ?_, ?_, ?_⟩
    · rw [lookupJS_insert_ne _ _ _ _ hp2, hlookup p hp1]
    · rw [lookupJS_insert_ne _ _ _ _ (by decide)]
      exact hempty
    · rw [lookupJS_insert_self, hnone]
  · rw [if_neg h]
    have hpk := hlookup "/package.json" (by decide)
    rcases hl : lastModuleAt sandbox.modules "/package.json" with _ | m
    · rw [hl] at hpk
      rw [hpk] at h
      simp at h
    · rw [hl] at hpk
      exact ⟨hnodup, by rw [hlookup p hp1], hempty, by rw [hpk]; rfl⟩

/-- Witness for C3 at a concrete one-module sandbox and the path of its
module. -/
theorem getModulesToSend_characterization_witness :
    (List.map Prod.fst (getModulesToSend envA sbServer)).Nodup ∧
    lookupJS (getModulesToSend envA sbServer) "/a.js" =
      Option.map moduleEntry (lastModuleAt sbServer.modules "/a.js") ∧
    lookupJS (getModulesToSend envA sbServer) "" = none ∧
    lookupJS (getModulesToSend envA sbServer) "/package.json" =
      some (match lastModuleAt sbServer.modules "/package.json" with
            | some m => moduleEntry m
            | none => packageJsonEntry envA sbServer) :=
  getModulesToSend_characterization envA sbServer "/a.js" (by decide) (by decide)

/-- C4 counterexample: at a concrete state holding a server executor,
switching to a browser sandbox while dispose rejects leaves the old
executor still in the slot - the manager is NOT left with a cleared
executor reference, contradicting the claim. -/
theorem initializeExecutor_disposeFailure_cex :
    (initializeExecutor envA behDF ⟨some ⟨.server, 0⟩, 1⟩ sbBrowser).result =
      .error (.disposeFailure 0) ∧
    (initializeExecutor envA behDF ⟨some ⟨.server, 0⟩, 1⟩ sbBrowser).state.executor =
      some ⟨.server, 0⟩ := by
  constructor <;> rfl

/-- C4 (amended): when the dispose triggered by a kind change rejects, the
failure propagates uncaught to the caller and the manager still holds the
previous (now disposed) executor - the slot is not cleared, because the
clearing assignment runs only after a successful dispose. -/
theorem initializeExecutor_disposeFailure_propagates (env : Env) (beh : Behavior)
    (st : ManagerState) (sandbox : Sandbox) (e : Executor)
    (h1 : st.executor = some e) (h2 : e.kind ≠ requiredKind env sandbox)
    (h3 : beh.disposeFails e.instId = true) :
    (initializeExecutor env beh st sandbox).result = .error (.disposeFailure e.instId) ∧
    (initializeExecutor env beh st sandbox).state = st ∧
    (initializeExecutor env beh st sandbox).trace = [.dispose e.instId e.kind] := by
  unfold initializeExecutor
  simp [h1, h2, h3]

/-- Witness for the amended C4 at a concrete state and sandbox. -/
theorem initializeExecutor_disposeFailure_propagates_witness :
    (initializeExecutor envA behDF ⟨some ⟨.server, 0⟩, 1⟩ sbBrowser).result =
      .error (.disposeFailure 0) ∧
    (initializeExecutor envA behDF ⟨some ⟨.server, 0⟩, 1⟩ sbBrowser).state =
      ⟨some ⟨.server, 0⟩, 1⟩ ∧
    (initializeExecutor envA behDF ⟨some ⟨.server, 0⟩, 1⟩ sbBrowser).trace =
      [.dispose 0 .server] :=
  initializeExecutor_disposeFailure_propagates envA behDF ⟨some ⟨.server, 0⟩, 1⟩
    sbBrowser ⟨.server, 0⟩ rfl (by decide) rfl

/-- C5: `isServer` returns true exactly when an executor is active and was
constructed for the server kind; with no active executor it returns
false. -/
theorem isServer_iff (st : ManagerState) :
    isServer st = true ↔ ∃ e, st.executor = some e ∧ e.kind = .server := by
  unfold isServer
  rcases hst : st.executor with _ | e0 <;> simp [hst]

/-- C6: after a successful `closeExecutor`, the executor was disposed
(exactly one dispose call) and the slot is cleared, so `getExecutor`
returns none. -/
theorem closeExecutor_clears (beh : Behavior) (st : ManagerState) (e : Executor)
    (h1 : st.executor = some e) (h2 : beh.disposeFails e.instId = false) :
    (closeExecutor beh st).result = .ok () ∧
    getExecutor (closeExecutor beh st).state = none ∧
    (closeExecutor beh st).trace = [.dispose e.instId e.kind] := by
  unfold closeExecutor getExecutor
  simp [h1, h2]

/-- Witness for C6 at a concrete state holding a server executor. -/
theorem closeExecutor_clears_witness :
    (closeExecutor behOK ⟨some ⟨.server, 0⟩, 1⟩).result = .ok () ∧
    getExecutor (closeExecutor behOK ⟨some ⟨.server, 0⟩, 1⟩).state = none ∧
    (closeExecutor behOK ⟨some ⟨.server, 0⟩, 1⟩).trace = [.dispose 0 .server] :=
  closeExecutor_clears behOK ⟨some ⟨.server, 0⟩, 1⟩ ⟨.server, 0⟩ rfl rfl

/-- C7: for a sandbox whose modules are exactly one module with path
`/a.js` and code `x`, the snapshot is exactly the `/a.js` entry carrying
that code with undefined savedCode and isBinary, plus the synthesized
`/package.json` entry, and nothing else. -/
theorem getModulesToSend_singleton (env : Env) (id tmpl : String) :
    getModulesToSend env (sb7 id tmpl) =
      [("/a.js", { code := some "x", savedCode := none, path := "/a.js", isBinary := none }),
       ("/package.json",
        { code := some (env.generateFileFromSandbox (sb7 id tmpl)), savedCode := none,
          path := "/package.json", isBinary := some false })] := by
  rfl

/-- C8: with no active executor, `setupExecutor`, `updateFiles` and
`closeExecutor` each fail with the null-reference error from dereferencing
the absent executor; none converts it into a named error. -/
theorem noActiveExecutor_nullRef (env : Env) (beh : Behavior) (st : ManagerState)
    (sandbox : Sandbox) (h : getExecutor st = none) :
    (setupExecutor beh st).result = .error .nullRef ∧
    (updateFiles env st sandbox).result = .error .nullRef ∧
    (closeExecutor beh st).result = .error .nullRef := by
  unfold getExecutor at h
  unfold setupExecutor updateFiles closeExecutor getExecutor
  simp [h]

/-- Witness for C8 at the empty manager state. -/
theorem noActiveExecutor_nullRef_witness :
    (setupExecutor behOK ⟨none, 0⟩).result = .error .nullRef ∧
    (updateFiles envA ⟨none, 0⟩ sbServer).result = .error .nullRef ∧
    (closeExecutor behOK ⟨none, 0⟩).result = .error .nullRef :=
  noActiveExecutor_nullRef envA behOK ⟨none, 0⟩ sbServer rfl

/-- C9: `updateFiles` leaves the manager state untouched (no disposal, no
replacement), forwards exactly the snapshot derived from the sandbox, and
a second call with the same sandbox forwards a structurally identical
snapshot. -/
theorem updateFiles_deterministic (env : Env) (st : ManagerState)
    (sandbox : Sandbox) (e : Executor) (h : st.executor = some e) :
    (updateFiles env st sandbox).state = st ∧
    (updateFiles env st sandbox).result = .ok () ∧
    (updateFiles env st sandbox).trace =
      [.updateFiles e.instId (getModulesToSend env sandbox)] ∧
    (updateFiles env (updateFiles env st sandbox).state sandbox).trace =
      (updateFiles env st sandbox).trace := by
  unfold updateFiles
  simp [h]

/-- Witness for C9 at a concrete state and sandbox. -/
theorem updateFiles_deterministic_witness :
    (updateFiles envA ⟨some ⟨.server, 0⟩, 1⟩ sbServer).state = ⟨some ⟨.server, 0⟩, 1⟩ ∧
    (updateFiles envA ⟨some ⟨.server, 0⟩, 1⟩ sbServer).result = .ok () ∧
    (updateFiles envA ⟨some ⟨.server, 0⟩, 1⟩ sbServer).trace =
      [.updateFiles 0 (getModulesToSend envA sbServer)] ∧
    (updateFiles envA (updateFiles envA ⟨some ⟨.server, 0⟩, 1⟩ sbServer).state sbServer).trace =
      (updateFiles envA ⟨some ⟨.server, 0⟩, 1⟩ sbServer).trace :=
  updateFiles_deterministic envA ⟨some ⟨.server, 0⟩, 1⟩ sbServer ⟨.server, 0⟩ rfl

/-- C10: every entry of every snapshot carries a path field equal to the
key under which it is stored, for copied module entries and for the
synthesized manifest entry alike. -/
theorem getModulesToSend_path_eq_key (env : Env) (sandbox : Sandbox) :
    List.all (getModulesToSend env sandbox) (fun p => p.2.path == p.1) = true := by
  simp only [getModulesToSend]
  have hbase : List.all (List.foldl addModule ([] : IFiles) sandbox.modules)
      (fun p => p.2.path == p.1) = true :=
    foldl_addModule_all _ _ _ rfl (fun m hm => by simp [moduleEntry])
  by_cases h : (lookupJS (List.foldl addModule ([] : IFiles) sandbox.modules) "/package.json").isNone
  · rw [if_pos h]
    exact insertJS_all _ _ _ _ hbase (by simp [packageJsonEntry])
  · rw [if_neg h]
    exact hbase
